import Mathlib

/-!
Verification of the hp-bot pipeline (channel lister / thread harvester /
Discord notifier) against its specification.

The Python sources are shallowly embedded:
* Python text values (`str`) are modelled as `List Char` (`PyStr`): Python
  strings are sequences of code points, so length, slicing and concatenation
  translate to `List.length`, `List.take` and `++`.
* JSON-ish dynamic values (the thread records returned by the remote API)
  are modelled by the inductive `Val`; Python `dict`s become association
  lists whose keys are Lean `String`s.
* Python truthiness (`or` chains, `if x:`) is modelled by `pyTruthy`.
* The stateful parts (reading the previous harvest file, awaiting the
  per-channel tasks, writing the two output files) are modelled by explicit
  data flow: fallible fetches become `Except`, the file writes become the
  components of the returned pair, and the completion order of the
  concurrent per-channel tasks becomes the order of the list of per-channel
  result lists.
-/

namespace HpBot

/-- A Python string: a sequence of Unicode code points. -/
abbrev PyStr := List Char

/-- A JSON-like dynamic value, as handled by the Python code.
`vdict` models a Python `dict` as an association list (first binding wins on
lookup, as in a `dict` where keys are unique). -/
inductive Val where
  | vnull
  | vbool (b : Bool)
  | vint (n : Int)
  | vstr (s : PyStr)
  | vlist (xs : List Val)
  | vdict (fields : List (String × Val))

/-- Python truthiness of a `Val`: `None`, `False`, `0`, `""`, `[]`, `{}`
are falsy, everything else is truthy. -/
def pyTruthy : Val → Bool
  | .vnull => false
  | .vbool b => b
  | .vint n => n != 0
  | .vstr s => !s.isEmpty
  | .vlist xs => !xs.isEmpty
  | .vdict fs => !fs.isEmpty

/-- Python `a or b` on dynamic values. -/
def pyOr (a b : Val) : Val := if pyTruthy a then a else b

/-- Python `d.get(k)` on a dict value: `None` when the key is absent.
Non-dict receivers yield `None` here (the Python code only applies `.get`
to values that are dicts after an `or {}` guard). -/
def vGet (v : Val) (k : String) : Val :=
  match v with
  | .vdict fields => (fields.lookup k).getD .vnull
  | _ => .vnull

/-! ## Thread harvester (talent-channel-newest.py) -/

/-- A thread record: the Python `dict` for one thread, as an association
list from field name to value. -/
abbrev ThreadObj := List (String × Val)

/-- The five volatile fields removed by `_sanitize_thread`:
`updated_at`, `reaction_total`, `reply_count`, `is_favorite`,
`user_reacted_count`. -/
def volatileFields : List String :=
  ["updated_at", "reaction_total", "reply_count", "is_favorite",
   "user_reacted_count"]

/-- `_sanitize_thread`: copy the thread dict and `pop` the five volatile
fields.  On an association list this is exactly the filter that drops the
bindings whose key is volatile, keeping all other bindings in order. -/
def sanitize_thread (thread : ThreadObj) : ThreadObj :=
  thread.filter (fun kv => !(volatileFields.contains kv.1))

/-- One element of the harvester's `results` list:
`{channel_id, channel_name, thread_id, thread}`. -/
structure HarvestEntry where
  channel_id : PyStr
  channel_name : PyStr
  thread_id : PyStr
  thread : ThreadObj

/-- The sort key `(row.get("thread") or {}).get("created_at", 0)`.
In a `HarvestEntry` the `thread` field is always present, so only the
`.get("created_at", 0)` default matters; `created_at` is a numeric
timestamp per the data model (a present non-numeric value would make the
Python comparison raise, which is out of scope). -/
def created_at_key (e : HarvestEntry) : Int :=
  match e.thread.lookup "created_at" with
  | some (Val.vint n) => n
  | some _ => 0
  | none => 0

/-- The ordering used by `results.sort(key=..., reverse=True)`: `a` may come
before `b` when `a`'s key is at least `b`'s key. -/
def threadGE (a b : HarvestEntry) : Prop := created_at_key b ≤ created_at_key a

instance : DecidableRel threadGE := fun a b =>
  inferInstanceAs (Decidable (created_at_key b ≤ created_at_key a))

instance : IsTotal HarvestEntry threadGE := ⟨fun _ _ => (Int.le_total _ _).symm⟩

instance : IsTrans HarvestEntry threadGE := ⟨fun _ _ _ h1 h2 => le_trans h2 h1⟩

/-- `results.sort(key=lambda row: ..., reverse=True)`: a stable descending
sort by `created_at_key`.  Python's `list.sort` is stable, and the output of
a stable sort is uniquely determined by the comparator and the input order,
so the (stable) insertion sort denotes the same function. -/
def sort_results (l : List HarvestEntry) : List HarvestEntry :=
  List.insertionSort threadGE l

/-- The merged, sorted full-harvest list that is written to
`talent-channel-newest.json` (line 237ff), as a function of the concatenated
per-channel results. -/
def full_results (merged : List HarvestEntry) : List HarvestEntry :=
  sort_results merged

/-- The state of the previous `talent-channel-newest.json` file: missing
(`FileNotFoundError`), unparseable (`json.JSONDecodeError`), or parsed rows. -/
inductive PrevFile where
  | absent
  | corrupt
  | parsed (rows : List HarvestEntry)

/-- The known-ID set collected at lines 192-206: on a missing or corrupt
file the set is empty; otherwise every row contributes its `thread_id`
provided it is a non-empty string. -/
def existing_thread_ids : PrevFile → List PyStr
  | .absent => []
  | .corrupt => []
  | .parsed rows =>
      rows.filterMap (fun row =>
        if row.thread_id.isEmpty then none else some row.thread_id)

/-- The `new_results` list written to `new.json` (lines 250-257): the rows of
the sorted full harvest whose `thread_id` is not in the known-ID set,
sorted again by the same key. -/
def new_results (merged : List HarvestEntry) (prev : PrevFile) : List HarvestEntry :=
  sort_results
    ((full_results merged).filter
      (fun row => !((existing_thread_ids prev).contains row.thread_id)))

/-- The full-harvest output as a function of the per-channel result lists in
the order the concurrent tasks completed (`asyncio.as_completed` appends each
channel's list to `per_channel_results` as it finishes; the lists are then
concatenated and sorted). -/
def harvest_output (per_channel_results : List (List HarvestEntry)) : List HarvestEntry :=
  full_results per_channel_results.flatten

/-! ### Pagination (`iter_all_threads`) -/

/-- One response of the threads endpoint: `items` is the value of
`data.get("items") or []`, and `next_cursor` is `data.get("next_cursor")`
(`none` models key absent or `null`). -/
structure Page where
  items : List Val
  next_cursor : Option PyStr

/-- Python truthiness of the cursor: `if not cursor: break` stops on `None`
and on the empty string. -/
def cursorTruthy : Option PyStr → Bool
  | none => false
  | some c => !c.isEmpty

/-- `iter_all_threads`, run against the oracle sequence `pages` of successive
responses (the n-th element is the response to the n-th request).  Returns
the yielded items together with the number of requests issued.  The loop:
request a page; if its `items` is empty, stop; otherwise yield the items and,
if the returned cursor is falsy, stop, else continue with the next page. -/
def iter_all_threads : List Page → List Val × Nat
  | [] => ([], 0)
  | p :: rest =>
      if p.items.isEmpty then ([], 1)
      else if cursorTruthy p.next_cursor then
        let r := iter_all_threads rest
        (p.items ++ r.1, r.2 + 1)
      else (p.items, 1)

/-- Modelled from the spec's words, for comparison with `iter_all_threads`:
"Loop: if `items` is empty, stop. Otherwise append all items, advance cursor
to `next_cursor`; if no cursor returned, stop."  Here the loop continues
whenever a `next_cursor` is present (carried), even an empty string. -/
def spec_pagination : List Page → List Val × Nat
  | [] => ([], 0)
  | p :: rest =>
      if p.items.isEmpty then ([], 1)
      else
        match p.next_cursor with
        | some _ =>
            let r := spec_pagination rest
            (p.items ++ r.1, r.2 + 1)
        | none => (p.items, 1)

/-! ### Fan-out, failure and the file writes -/

/-- An HTTP error raised by `resp.raise_for_status()` in a per-channel fetch. -/
structure HttpError where
  status : Nat

/-- Await all per-channel tasks: the first failed task's exception propagates
out of the `as_completed` loop, otherwise all result lists are collected. -/
def collect_all :
    List (Except HttpError (List HarvestEntry)) →
      Except HttpError (List (List HarvestEntry))
  | [] => .ok []
  | .error e :: _ => .error e
  | .ok l :: rest =>
      match collect_all rest with
      | .error e => .error e
      | .ok ls => .ok (l :: ls)

/-- The tail of `_main_async` (lines 225-262) as a function of the previous
file state and the per-channel fetch outcomes.  `.ok (full, new)` means both
output files were written with those contents; `.error e` means the run
aborted before either `open(..., "w")`, leaving the previous files
untouched. -/
def run_harvest (prev : PrevFile)
    (fetched : List (Except HttpError (List HarvestEntry))) :
    Except HttpError (List HarvestEntry × List HarvestEntry) :=
  match collect_all fetched with
  | .error e => .error e
  | .ok per_channel =>
      .ok (full_results per_channel.flatten, new_results per_channel.flatten prev)

/-! ## Notifier (notify.py) -/

/-- Python `str.strip()`: remove whitespace from both ends. -/
def py_strip (s : PyStr) : PyStr :=
  ((s.dropWhile Char.isWhitespace).reverse.dropWhile Char.isWhitespace).reverse

/-- The string content of a `Val` expected to be a string; the claims under
verification only exercise string-valued (or absent) text fields. -/
def str_of_val : Val → PyStr
  | .vstr s => s
  | _ => []

/-- The dict `ja = translations.get("ja") or {}` with
`translations = thread.get("translations") or {}`. -/
def ja_dict (thread : Val) : Val :=
  let translations := pyOr (vGet thread "translations") (.vdict [])
  pyOr (vGet translations "ja") (.vdict [])

/-- `title = ja.get("title") or thread.get("title") or ""`. -/
def payload_title (thread : Val) : Val :=
  pyOr (vGet (ja_dict thread) "title") (pyOr (vGet thread "title") (.vstr []))

/-- `header = f"[{channel_name}] {title}".strip()`. -/
def payload_header (channel_name : PyStr) (thread : Val) : PyStr :=
  py_strip ('[' :: channel_name ++ ']' :: ' ' :: str_of_val (payload_title thread))

/-- `MAX_DESC` in `build_discord_payload`. -/
def MAX_DESC : Nat := 3800

/-- The embed description: `desc_lines = [body] if body else []`,
`description = "\n".join(desc_lines)`, then
`description[:MAX_DESC - 1] + "…"` when longer than `MAX_DESC`. -/
def payload_description (body : PyStr) : PyStr :=
  let desc_lines : List PyStr := if !body.isEmpty then [body] else []
  let description := List.intercalate ['\n'] desc_lines
  if description.length > MAX_DESC then description.take (MAX_DESC - 1) ++ ['…']
  else description

/-- The top-level message content: `content = header if header else
(thread_url or "")`, then `content[:1999] + "…"` when longer than 2000. -/
def payload_content (header : PyStr) (thread_url : Option PyStr) : PyStr :=
  let content := if !header.isEmpty then header else thread_url.getD []
  if content.length > 2000 then content.take 1999 ++ ['…']
  else content

/-! ### Concrete fixtures used by the example parts of the claims -/

/-- A harvest entry with the given thread id and `created_at` timestamp. -/
def sampleEntry (tid : PyStr) (ts : Int) : HarvestEntry :=
  { channel_id := [], channel_name := [], thread_id := tid,
    thread := [("created_at", Val.vint ts)] }

/-- A harvest entry whose thread has no `created_at` field. -/
def sampleEntryNoCreated (tid : PyStr) : HarvestEntry :=
  { channel_id := [], channel_name := [], thread_id := tid, thread := [] }

/-- Page response `{items: [a, b], next_cursor: "x"}`. -/
def pageOne : Page := ⟨[Val.vstr ['a'], Val.vstr ['b']], some ['x']⟩

/-- Page response `{items: [c]}` with no `next_cursor`. -/
def pageTwo : Page := ⟨[Val.vstr ['c']], none⟩

/-- Page response `{items: [], next_cursor: "y"}`. -/
def pageEmptyFirst : Page := ⟨[], some ['y']⟩

/-- Page response `{items: [a], next_cursor: ""}`: it carries a
`next_cursor`, but that cursor is falsy in Python. -/
def pageBlankCursor : Page := ⟨[Val.vstr ['a']], some []⟩

/-- Page response `{items: [b]}` with no `next_cursor`. -/
def pageFinal : Page := ⟨[Val.vstr ['b']], none⟩

/-- A thread with both a Japanese translated title `"J"` and a plain
title `"T"`. -/
def sampleThreadJa : Val :=
  .vdict [("translations", .vdict [("ja", .vdict [("title", .vstr ['J'])])]),
          ("title", .vstr ['T'])]

/-- A thread with only a plain title `"T"`. -/
def sampleThreadPlain : Val := .vdict [("title", .vstr ['T'])]

/-- A thread whose Japanese translated title is present but empty (`""`)
while the plain title is `"T"`. -/
def sampleThreadEmptyJa : Val :=
  .vdict [("translations", .vdict [("ja", .vdict [("title", .vstr [])])]),
          ("title", .vstr ['T'])]

/-! ## Shared lemmas -/

theorem mem_sort_results {e : HarvestEntry} {l : List HarvestEntry} :
    e ∈ sort_results l ↔ e ∈ l :=
  (List.perm_insertionSort threadGE l).mem_iff

theorem sorted_sort_results (l : List HarvestEntry) :
    (sort_results l).Sorted threadGE :=
  List.sorted_insertionSort threadGE l

theorem sanitize_thread_keys (t : ThreadObj) :
    (sanitize_thread t).map Prod.fst
      = (t.map Prod.fst).filter (fun k => !(volatileFields.contains k)) := by
  induction t with
  | nil => rfl
  | cons kv rest ih =>
      simp only [sanitize_thread] at ih ⊢
      by_cases h : kv.1 ∈ volatileFields <;>
        simp [List.filter_cons, h] <;> simpa using ih

theorem sanitize_thread_lookup (t : ThreadObj) (k : String)
    (hk : k ∉ volatileFields) :
    (sanitize_thread t).lookup k = t.lookup k := by
  induction t with
  | nil => rfl
  | cons kv rest ih =>
      obtain ⟨k₂, v⟩ := kv
      simp only [sanitize_thread] at ih ⊢
      by_cases hv : k₂ ∈ volatileFields
      · have hne : (k == k₂) = false := by
          apply beq_eq_false_iff_ne.mpr
          intro h
          exact hk (h ▸ hv)
        simp [List.filter_cons, hv, List.lookup, hne]
        simpa using ih
      · by_cases hke : (k == k₂) = true
        · simp [List.filter_cons, hv, List.lookup, hke]
        · simp [List.filter_cons, hv, List.lookup, hke]
          simpa using ih

theorem sanitize_thread_congr :
    ∀ (t₁ t₂ : ThreadObj), t₁.length = t₂.length →
      (∀ p ∈ t₁.zip t₂, p.1.1 = p.2.1 ∧ (p.1.1 ∉ volatileFields → p.1.2 = p.2.2)) →
      sanitize_thread t₁ = sanitize_thread t₂ := by
  intro t₁
  induction t₁ with
  | nil =>
      intro t₂ hlen _
      cases t₂ with
      | nil => rfl
      | cons b r => simp at hlen
  | cons a rest ih =>
      intro t₂ hlen hp
      cases t₂ with
      | nil => simp at hlen
      | cons b rest₂ =>
          have hhead := hp (a, b) (by simp)
          have htail : ∀ p ∈ rest.zip rest₂,
              p.1.1 = p.2.1 ∧ (p.1.1 ∉ volatileFields → p.1.2 = p.2.2) :=
            fun p hmem => hp p (by simp [hmem])
          have hlen₂ : rest.length = rest₂.length := by simpa using hlen
          simp only [sanitize_thread] at *
          by_cases hv : a.1 ∈ volatileFields
          · have hv₂ : b.1 ∈ volatileFields := hhead.1 ▸ hv
            simp [List.filter_cons, hv, hv₂]
            simpa using ih rest₂ hlen₂ htail
          · have hab : a = b := Prod.ext_iff.mpr ⟨hhead.1, hhead.2 hv⟩
            have hv₂ : b.1 ∉ volatileFields := hab ▸ hv
            simp [List.filter_cons, hv, hv₂, hab]
            simpa using ih rest₂ hlen₂ htail

theorem new_results_of_no_known_ids (merged : List HarvestEntry) (prev : PrevFile)
    (h : existing_thread_ids prev = []) :
    new_results merged prev = full_results merged := by
  have hf : ((full_results merged).filter
      (fun row => !((existing_thread_ids prev).contains row.thread_id)))
      = full_results merged := by
    simp [h]
  show sort_results _ = _
  rw [hf]
  exact List.Sorted.insertionSort_eq (List.sorted_insertionSort threadGE merged)

/-! ## Claims -/

/-- C2: for every thread record `t`, `sanitize_thread t` has exactly the keys
of `t` minus the five volatile fields, in order, with every surviving binding
unchanged (both as a binding and under lookup); consequently two records that
agree everywhere except possibly on the five volatile fields sanitize to the
same record. -/
theorem sanitize_thread_correct (t : ThreadObj) :
    ((sanitize_thread t).map Prod.fst
        = (t.map Prod.fst).filter (fun k => !(volatileFields.contains k)))
    ∧ (∀ (k : String) (v : Val),
        (k, v) ∈ sanitize_thread t ↔ (k, v) ∈ t ∧ k ∉ volatileFields)
    ∧ (∀ k : String, k ∉ volatileFields →
        (sanitize_thread t).lookup k = t.lookup k)
    ∧ (∀ t₂ : ThreadObj, t.length = t₂.length →
        (∀ p ∈ t.zip t₂, p.1.1 = p.2.1 ∧ (p.1.1 ∉ volatileFields → p.1.2 = p.2.2)) →
        sanitize_thread t = sanitize_thread t₂) := by
  refine ⟨sanitize_thread_keys t, ?_, sanitize_thread_lookup t,
    sanitize_thread_congr t⟩
  intro k v
  simp [sanitize_thread, List.mem_filter]

/-- C2 witness: two snapshots of the same thread that differ only in the
volatile `updated_at` field sanitize to the same record. -/
theorem sanitize_thread_correct_witness :
    sanitize_thread [("title", Val.vstr ['x']), ("updated_at", Val.vint 1)]
      = sanitize_thread [("title", Val.vstr ['x']), ("updated_at", Val.vint 2)] := by
  refine (sanitize_thread_correct _).2.2.2 _ rfl ?_
  intro p hp
  simp only [List.zip, List.zipWith, List.mem_cons, List.not_mem_nil, or_false] at hp
  rcases hp with h | h <;> subst h
  · exact ⟨rfl, fun _ => rfl⟩
  · exact ⟨rfl, fun h => absurd (by decide) h⟩

/-- C10: sanitization is idempotent: re-sanitizing an already sanitized
thread record changes nothing. -/
theorem sanitize_thread_idempotent (t : ThreadObj) :
    sanitize_thread (sanitize_thread t) = sanitize_thread t := by
  simp [sanitize_thread, List.filter_filter]

/-- C5: an absent or corrupt previous harvest file yields an empty known-ID
set (instead of a failure), so the new-items output is the whole merged
harvest: every merged entry is classified as new. -/
theorem prev_file_missing_or_corrupt_all_new :
    existing_thread_ids PrevFile.absent = []
    ∧ existing_thread_ids PrevFile.corrupt = []
    ∧ (∀ merged : List HarvestEntry,
        new_results merged PrevFile.absent = full_results merged)
    ∧ (∀ merged : List HarvestEntry,
        new_results merged PrevFile.corrupt = full_results merged)
    ∧ (∀ (merged : List HarvestEntry) (e : HarvestEntry),
        e ∈ new_results merged PrevFile.absent ↔ e ∈ merged) := by
  refine ⟨rfl, rfl,
    fun merged => new_results_of_no_known_ids merged PrevFile.absent rfl,
    fun merged => new_results_of_no_known_ids merged PrevFile.corrupt rfl, ?_⟩
  intro merged e
  rw [new_results_of_no_known_ids merged PrevFile.absent rfl]
  exact mem_sort_results

/-- C1: the new-items output consists of exactly the merged entries whose
`thread_id` is not among the thread ids of the previous harvest file, is
sorted descending by `created_at`, and in particular for a previous harvest
with ids A, B and a merged set with ids A, B, C it is exactly the entry
with id C. -/
theorem new_results_diff_correct :
    (∀ (prev : PrevFile) (merged : List HarvestEntry) (e : HarvestEntry),
        e ∈ new_results merged prev ↔
          e ∈ merged ∧ e.thread_id ∉ existing_thread_ids prev)
    ∧ (∀ (prev : PrevFile) (merged : List HarvestEntry),
        (new_results merged prev).Sorted threadGE)
    ∧ new_results
        [sampleEntry ['A'] 5, sampleEntry ['B'] 4, sampleEntry ['C'] 3]
        (PrevFile.parsed [sampleEntry ['A'] 5, sampleEntry ['B'] 4])
      = [sampleEntry ['C'] 3] := by
  refine ⟨?_, fun prev merged => sorted_sort_results _, rfl⟩
  intro prev merged e
  simp only [new_results, full_results]
  rw [mem_sort_results, List.mem_filter, mem_sort_results]
  simp

/-- C4: the full-harvest output is the merged list sorted descending by the
`created_at` key (`Sorted threadGE` says each entry's key is at least the
next one's); an entry without `created_at` gets key `0`; entries with keys
5, 1, 3 come out in order 5, 3, 1, and among positive timestamps a missing
timestamp sorts last. -/
theorem full_results_sort_correct :
    (∀ merged : List HarvestEntry, (full_results merged).Sorted threadGE)
    ∧ (∀ merged : List HarvestEntry, (full_results merged).Perm merged)
    ∧ full_results [sampleEntry ['a'] 5, sampleEntry ['b'] 1, sampleEntry ['c'] 3]
        = [sampleEntry ['a'] 5, sampleEntry ['c'] 3, sampleEntry ['b'] 1]
    ∧ created_at_key (sampleEntryNoCreated ['m']) = 0
    ∧ full_results
        [sampleEntryNoCreated ['m'], sampleEntry ['a'] 5, sampleEntry ['c'] 3]
        = [sampleEntry ['a'] 5, sampleEntry ['c'] 3, sampleEntryNoCreated ['m']] :=
  ⟨fun _ => List.sorted_insertionSort _ _, fun _ => List.perm_insertionSort _ _,
    rfl, rfl, rfl⟩

/-- C6 counterexample: two per-channel singleton results with distinct
thread ids but the same `created_at` value.  The two completion orders are
permutations of each other, yet the stable sort keeps the tied entries in
arrival order, so the two final outputs differ. -/
theorem harvest_output_completion_order_counterexample :
    ([[sampleEntry ['a'] 5], [sampleEntry ['b'] 5]] :
        List (List HarvestEntry)).Perm [[sampleEntry ['b'] 5], [sampleEntry ['a'] 5]]
    ∧ harvest_output [[sampleEntry ['a'] 5], [sampleEntry ['b'] 5]]
        = [sampleEntry ['a'] 5, sampleEntry ['b'] 5]
    ∧ harvest_output [[sampleEntry ['b'] 5], [sampleEntry ['a'] 5]]
        = [sampleEntry ['b'] 5, sampleEntry ['a'] 5]
    ∧ harvest_output [[sampleEntry ['a'] 5], [sampleEntry ['b'] 5]]
        ≠ harvest_output [[sampleEntry ['b'] 5], [sampleEntry ['a'] 5]] := by
  refine ⟨List.Perm.swap _ _ _, rfl, rfl, ?_⟩
  intro h
  exact absurd (congrArg (List.map HarvestEntry.thread_id) h) (by decide)

/-- C6 amended: under any two completion orders of the per-channel tasks the
final outputs are permutations of each other, and they are identical
provided no two merged entries share the same `created_at` key (with ties
the relative order of the tied entries depends on the completion order). -/
theorem harvest_output_completion_order_invariant
    (pc₁ pc₂ : List (List HarvestEntry)) (hperm : pc₁.Perm pc₂) :
    (harvest_output pc₁).Perm (harvest_output pc₂)
    ∧ ((pc₁.flatten.map created_at_key).Nodup →
        harvest_output pc₁ = harvest_output pc₂) := by
  have hflat : pc₁.flatten.Perm pc₂.flatten := hperm.flatten
  have h₁ : (harvest_output pc₁).Perm pc₁.flatten := List.perm_insertionSort _ _
  have h₂ : (harvest_output pc₂).Perm pc₂.flatten := List.perm_insertionSort _ _
  have hout : (harvest_output pc₁).Perm (harvest_output pc₂) :=
    (h₁.trans hflat).trans h₂.symm
  refine ⟨hout, fun hnd => ?_⟩
  have hs₁ : (harvest_output pc₁).Sorted threadGE := List.sorted_insertionSort _ _
  have hs₂ : (harvest_output pc₂).Sorted threadGE := List.sorted_insertionSort _ _
  have hnd₁ : ((harvest_output pc₁).map created_at_key).Nodup :=
    ((h₁.map created_at_key).nodup_iff).mpr hnd
  have hnd₂ : ((harvest_output pc₂).map created_at_key).Nodup :=
    ((h₂.map created_at_key).nodup_iff).mpr (((hflat.map created_at_key).nodup_iff).mp hnd)
  have hp₁ : (harvest_output pc₁).Pairwise
      (fun a b => created_at_key b < created_at_key a) :=
    (hs₁.and (List.pairwise_map.mp hnd₁)).imp
      (fun h => lt_of_le_of_ne h.1 h.2.symm)
  have hp₂ : (harvest_output pc₂).Pairwise
      (fun a b => created_at_key b < created_at_key a) :=
    (hs₂.and (List.pairwise_map.mp hnd₂)).imp
      (fun h => lt_of_le_of_ne h.1 h.2.symm)
  haveI : IsAntisymm HarvestEntry (fun a b => created_at_key b < created_at_key a) :=
    ⟨fun _ _ h1 h2 => (lt_asymm h1 h2).elim⟩
  exact List.eq_of_perm_of_sorted hout hp₁ hp₂

/-- C6 witness: with distinct `created_at` keys the two completion orders
produce identical output. -/
theorem harvest_output_completion_order_invariant_witness :
    harvest_output [[sampleEntry ['a'] 5], [sampleEntry ['c'] 3]]
      = harvest_output [[sampleEntry ['c'] 3], [sampleEntry ['a'] 5]] :=
  (harvest_output_completion_order_invariant _ _ (List.Perm.swap _ _ _)).2
    (by decide)

/-- C3 counterexample: the per-channel fetch loop stops on a *falsy* cursor,
not only on an absent one.  On `page1 = {items: [a], next_cursor: ""}`
followed by `page2 = {items: [b]}` the code stops after one request with
items `[a]`, while the claimed stopping rule (stop only when `items` is
empty or no `next_cursor` is carried) would fetch page2 and yield
`[a, b]` in two requests. -/
theorem iter_all_threads_blank_cursor_counterexample :
    iter_all_threads [pageBlankCursor, pageFinal] = ([Val.vstr ['a']], 1)
    ∧ spec_pagination [pageBlankCursor, pageFinal]
        = ([Val.vstr ['a'], Val.vstr ['b']], 2)
    ∧ iter_all_threads [pageBlankCursor, pageFinal]
        ≠ spec_pagination [pageBlankCursor, pageFinal] := by
  refine ⟨rfl, rfl, ?_⟩
  intro h
  exact absurd (congrArg Prod.snd h) (by decide)

/-- C3 amended: the paginated per-channel fetch stops at the first response
whose items list is empty or whose `next_cursor` is absent or empty (falsy),
and yields the concatenation of the items of the pages fetched so far in
order, having issued exactly one request per fetched page. -/
theorem iter_all_threads_pagination (pre : List Page) (p : Page) (rest : List Page)
    (hpre : ∀ q ∈ pre, q.items.isEmpty = false ∧ cursorTruthy q.next_cursor = true)
    (hstop : p.items.isEmpty = true ∨ cursorTruthy p.next_cursor = false) :
    iter_all_threads (pre ++ p :: rest)
      = ((pre.map Page.items).flatten ++ p.items, pre.length + 1) := by
  induction pre with
  | nil =>
      rcases hstop with he | hc
      · simp [iter_all_threads, he, List.isEmpty_iff.mp he]
      · by_cases he : p.items.isEmpty
        · simp [iter_all_threads, he, List.isEmpty_iff.mp he]
        · simp [iter_all_threads, he, hc]
  | cons q pre ih =>
      have hq := hpre q (List.mem_cons_self _ _)
      have hrest := ih (fun r hr => hpre r (List.mem_cons_of_mem _ hr))
      simp [iter_all_threads, hq.1, hq.2, hrest, List.append_assoc]

/-- C3 witness: `page1 = {items: [a, b], next_cursor: "x"}` followed by
`page2 = {items: [c]}` yields `[a, b, c]` in exactly two requests, and a
first page `{items: [], next_cursor: "y"}` yields `[]` after one request. -/
theorem iter_all_threads_pagination_witness :
    iter_all_threads [pageOne, pageTwo]
      = ([Val.vstr ['a'], Val.vstr ['b'], Val.vstr ['c']], 2)
    ∧ iter_all_threads [pageEmptyFirst] = ([], 1) := by
  constructor
  · exact iter_all_threads_pagination [pageOne] pageTwo []
      (by
        intro q hq
        rw [List.mem_singleton] at hq
        subst hq
        exact ⟨rfl, rfl⟩)
      (Or.inr rfl)
  · exact iter_all_threads_pagination [] pageEmptyFirst []
      (by intro q hq; cases hq) (Or.inl rfl)

theorem collect_all_error {e : HttpError}
    {l : List (Except HttpError (List HarvestEntry))} (h : Except.error e ∈ l) :
    ∃ e₂, collect_all l = .error e₂ := by
  induction l with
  | nil => cases h
  | cons r rest ih =>
      cases r with
      | error e₂ => exact ⟨e₂, rfl⟩
      | ok lst =>
          rcases List.mem_cons.mp h with h1 | h2
          · simp at h1
          · obtain ⟨e₂, hc⟩ := ih h2
            exact ⟨e₂, by simp [collect_all, hc]⟩

theorem collect_all_ok_mem {l : List (Except HttpError (List HarvestEntry))}
    {ls : List (List HarvestEntry)} (h : collect_all l = .ok ls) :
    ∀ r ∈ l, ∃ x, r = .ok x := by
  induction l generalizing ls with
  | nil => intro r hr; cases hr
  | cons q rest ih =>
      cases q with
      | error e => simp [collect_all] at h
      | ok lst =>
          intro r hr
          rcases List.mem_cons.mp hr with h1 | h2
          · exact ⟨lst, h1⟩
          · cases hc : collect_all rest with
            | error e => rw [collect_all, hc] at h; cases h
            | ok ls₂ => exact ih hc r h2

theorem collect_all_all_ok {l : List (Except HttpError (List HarvestEntry))}
    (h : ∀ r ∈ l, ∃ x, r = .ok x) :
    ∃ ls, collect_all l = .ok ls := by
  induction l with
  | nil => exact ⟨[], rfl⟩
  | cons q rest ih =>
      obtain ⟨x, hx⟩ := h q (List.mem_cons_self _ _)
      subst hx
      obtain ⟨ls, hls⟩ := ih (fun r hr => h r (List.mem_cons_of_mem _ hr))
      exact ⟨x :: ls, by simp [collect_all, hls]⟩

theorem collect_all_map_ok (pcs : List (List HarvestEntry)) :
    collect_all (pcs.map Except.ok) = .ok pcs := by
  induction pcs with
  | nil => rfl
  | cons l rest ih => simp [collect_all, ih]

/-- C7: if any per-channel fetch fails with an HTTP error, the run aborts
with an error and neither output file is produced; the pair of output files
is produced exactly when every per-channel task completed successfully, and
then it holds the merged-sorted full harvest and the new-items list. -/
theorem run_harvest_fail_fast :
    (∀ (prev : PrevFile) (fetched : List (Except HttpError (List HarvestEntry)))
        (e : HttpError), Except.error e ∈ fetched →
          ∃ e₂, run_harvest prev fetched = .error e₂)
    ∧ (∀ (prev : PrevFile) (fetched : List (Except HttpError (List HarvestEntry))),
        (∃ out, run_harvest prev fetched = .ok out) ↔
          ∀ r ∈ fetched, ∃ l, r = .ok l)
    ∧ (∀ (prev : PrevFile) (pcs : List (List HarvestEntry)),
        run_harvest prev (pcs.map Except.ok)
          = .ok (full_results pcs.flatten, new_results pcs.flatten prev)) := by
  refine ⟨?_, ?_, ?_⟩
  · intro prev fetched e h
    obtain ⟨e₂, hc⟩ := collect_all_error h
    exact ⟨e₂, by simp [run_harvest, hc]⟩
  · intro prev fetched
    constructor
    · rintro ⟨out, hout⟩ r hr
      cases hc : collect_all fetched with
      | error e => rw [run_harvest, hc] at hout; cases hout
      | ok pcs => exact collect_all_ok_mem hc r hr
    · intro hall
      obtain ⟨ls, hc⟩ := collect_all_all_ok hall
      exact ⟨_, by rw [run_harvest, hc]⟩
  · intro prev pcs
    rw [run_harvest, collect_all_map_ok]

/-- C7 witness: one failed channel fetch makes the whole run abort with an
error, so no output pair is produced. -/
theorem run_harvest_fail_fast_witness :
    ∃ e₂, run_harvest PrevFile.absent
        [Except.ok [sampleEntry ['a'] 5], Except.error ⟨500⟩] = .error e₂ :=
  run_harvest_fail_fast.1 PrevFile.absent _ ⟨500⟩ (by simp)

theorem payload_description_closed (body : PyStr) (h : body.isEmpty = false) :
    payload_description body
      = if body.length > 3800 then body.take 3799 ++ ['…'] else body := by
  simp only [payload_description, MAX_DESC, h, Bool.not_false, if_true]
  rw [show List.intercalate (['\n'] : PyStr) [body] = body by
    simp [List.intercalate]]

theorem payload_content_closed (header : PyStr) (url : Option PyStr)
    (h : header.isEmpty = false) :
    payload_content header url
      = if header.length > 2000 then header.take 1999 ++ ['…'] else header := by
  simp only [payload_content, h, Bool.not_false, if_true]

/-- C8: the embed description built from a 4000-character body is its first
3799 characters plus one ellipsis character (3800 total); the message
content built from a 2005-character header is its first 1999 characters plus
one ellipsis character (2000 total); shorter texts pass through unchanged. -/
theorem payload_truncation :
    (∀ body : PyStr, body.length = 4000 →
        payload_description body = body.take 3799 ++ ['…']
        ∧ (payload_description body).length = 3800)
    ∧ (∀ body : PyStr, body.length ≤ 3800 → payload_description body = body)
    ∧ (∀ (header : PyStr) (url : Option PyStr), header.length = 2005 →
        payload_content header url = header.take 1999 ++ ['…']
        ∧ (payload_content header url).length = 2000)
    ∧ (∀ (header : PyStr) (url : Option PyStr),
        header.length ≤ 2000 → header ≠ [] → payload_content header url = header) := by
  refine ⟨?_, ?_, ?_, ?_⟩
  · intro body hlen
    have hne : body.isEmpty = false := by
      cases body with
      | nil => simp at hlen
      | cons c rest => rfl
    have heq : payload_description body = body.take 3799 ++ ['…'] := by
      rw [payload_description_closed body hne, if_pos (by omega)]
    refine ⟨heq, ?_⟩
    rw [heq]
    simp [List.length_take, hlen]
  · intro body hlen
    cases body with
    | nil => rfl
    | cons c rest =>
        rw [payload_description_closed (c :: rest) rfl, if_neg (by omega)]
  · intro header url hlen
    have hne : header.isEmpty = false := by
      cases header with
      | nil => simp at hlen
      | cons c rest => rfl
    have heq : payload_content header url = header.take 1999 ++ ['…'] := by
      rw [payload_content_closed header url hne, if_pos (by omega)]
    refine ⟨heq, ?_⟩
    rw [heq]
    simp [List.length_take, hlen]
  · intro header url hlen hne
    have hne₂ : header.isEmpty = false := by
      cases header with
      | nil => exact absurd rfl hne
      | cons c rest => rfl
    rw [payload_content_closed header url hne₂, if_neg (by omega)]

/-- C8 witness: a 4000-character body truncates to 3800 characters, a
2005-character header truncates to 2000 characters, and a short body passes
through unchanged. -/
theorem payload_truncation_witness :
    (payload_description (List.replicate 4000 'a')).length = 3800
    ∧ (payload_content (List.replicate 2005 'h') none).length = 2000
    ∧ payload_description (List.replicate 10 'b') = List.replicate 10 'b' :=
  ⟨(payload_truncation.1 _ (by rw [List.length_replicate])).2,
    (payload_truncation.2.2.1 _ none (by rw [List.length_replicate])).2,
    payload_truncation.2.1 _ (by rw [List.length_replicate]; decide)⟩

theorem pyOr_of_truthy {a b : Val} (h : pyTruthy a = true) : pyOr a b = a := by
  simp [pyOr, h]

theorem pyOr_of_falsy {a b : Val} (h : pyTruthy a = false) : pyOr a b = b := by
  simp [pyOr, h]

theorem py_strip_bracket (l : PyStr) :
    py_strip ('[' :: l ++ [']', ' ']) = '[' :: l ++ [']'] := by
  have hwa : ¬(Char.isWhitespace '[' = true) := by decide
  have hwb : ¬(Char.isWhitespace ']' = true) := by decide
  have hwc : Char.isWhitespace ' ' = true := by decide
  have h1 : List.dropWhile Char.isWhitespace ('[' :: (l ++ [']', ' ']))
      = '[' :: (l ++ [']', ' ']) := by
    rw [List.dropWhile_cons_of_neg hwa]
  have h3 : List.dropWhile Char.isWhitespace (' ' :: (']' :: (l.reverse ++ ['['])))
      = ']' :: (l.reverse ++ ['[']) := by
    rw [List.dropWhile_cons_of_pos hwc, List.dropWhile_cons_of_neg hwb]
  simp only [List.cons_append, py_strip, h1]
  rw [show ('[' :: (l ++ [']', ' '])).reverse = ' ' :: (']' :: (l.reverse ++ ['['])) by
    simp]
  rw [h3]
  simp

/-- C9 counterexample: a present `translations.ja.title` is not always used.
On a thread whose Japanese translated title is present but empty while the
plain title is `"T"`, the chain
`title = ja.get("title") or thread.get("title") or ""` skips the falsy
Japanese title and uses the plain one, so the header is `"[C] T"` and not
the Japanese title the claim as stated would demand. -/
theorem payload_header_fallback_counterexample :
    vGet (ja_dict sampleThreadEmptyJa) "title" = .vstr []
    ∧ payload_title sampleThreadEmptyJa = .vstr ['T']
    ∧ payload_title sampleThreadEmptyJa ≠ vGet (ja_dict sampleThreadEmptyJa) "title"
    ∧ payload_header ['C'] sampleThreadEmptyJa = ['[', 'C', ']', ' ', 'T'] := by
  refine ⟨rfl, rfl, ?_, rfl⟩
  intro h
  have h₂ : Val.vstr ['T'] = Val.vstr [] := h
  simp at h₂

/-- C9 amended: the notification header prefers the Japanese translated
title (`thread.translations.ja.title`) when it is present and non-empty;
when it is absent or empty (falsy) a present non-empty plain `thread.title`
is used; when both are absent or empty the header is just the bracketed
channel name (the constant `"[{name}] "` frame with the trailing space
stripped). -/
theorem payload_header_fallback (channel_name : PyStr) (thread : Val) :
    (∀ s : PyStr, s ≠ [] → vGet (ja_dict thread) "title" = .vstr s →
        payload_title thread = .vstr s
        ∧ payload_header channel_name thread
            = py_strip ('[' :: channel_name ++ ']' :: ' ' :: s))
    ∧ (∀ s : PyStr, s ≠ [] → pyTruthy (vGet (ja_dict thread) "title") = false →
        vGet thread "title" = .vstr s →
        payload_title thread = .vstr s
        ∧ payload_header channel_name thread
            = py_strip ('[' :: channel_name ++ ']' :: ' ' :: s))
    ∧ (pyTruthy (vGet (ja_dict thread) "title") = false →
        pyTruthy (vGet thread "title") = false →
        payload_title thread = .vstr []
        ∧ payload_header channel_name thread = '[' :: channel_name ++ [']']) := by
  refine ⟨?_, ?_, ?_⟩
  · intro s hs hja
    have hne : pyTruthy (Val.vstr s) = true := by
      cases s with
      | nil => exact absurd rfl hs
      | cons c rest => rfl
    have ht : payload_title thread = .vstr s := by
      simp only [payload_title]
      rw [hja, pyOr_of_truthy hne]
    refine ⟨ht, ?_⟩
    rw [show payload_header channel_name thread
        = py_strip ('[' :: channel_name ++ ']' :: ' '
            :: str_of_val (payload_title thread)) from rfl, ht]
    simp only [str_of_val]
  · intro s hs hja hplain
    have hne : pyTruthy (Val.vstr s) = true := by
      cases s with
      | nil => exact absurd rfl hs
      | cons c rest => rfl
    have ht : payload_title thread = .vstr s := by
      simp only [payload_title]
      rw [pyOr_of_falsy hja, hplain, pyOr_of_truthy hne]
    refine ⟨ht, ?_⟩
    rw [show payload_header channel_name thread
        = py_strip ('[' :: channel_name ++ ']' :: ' '
            :: str_of_val (payload_title thread)) from rfl, ht]
    simp only [str_of_val]
  · intro hja hplain
    have ht : payload_title thread = .vstr [] := by
      simp only [payload_title]
      rw [pyOr_of_falsy hja, pyOr_of_falsy hplain]
    refine ⟨ht, ?_⟩
    rw [show payload_header channel_name thread
        = py_strip ('[' :: channel_name ++ ']' :: ' '
            :: str_of_val (payload_title thread)) from rfl, ht]
    exact py_strip_bracket channel_name

/-- C9 witness: with both titles present the Japanese one wins, with only
the plain title present it is used, and with neither the header is the
bracketed channel name alone. -/
theorem payload_header_fallback_witness :
    payload_title sampleThreadJa = .vstr ['J']
    ∧ payload_title sampleThreadPlain = .vstr ['T']
    ∧ payload_header ['C'] (Val.vdict []) = ['[', 'C', ']'] :=
  ⟨((payload_header_fallback [] sampleThreadJa).1 ['J'] (by simp) rfl).1,
    ((payload_header_fallback [] sampleThreadPlain).2.1 ['T'] (by simp) rfl rfl).1,
    ((payload_header_fallback ['C'] (Val.vdict [])).2.2 rfl rfl).2⟩

end HpBot
